import Mathlib

/-
Verification of the L402 pay-to-access authentication gate
(`src/utils/l402_auth.py`, `src/main.py`).

The Python source is shallowly embedded below.  Pure helpers become Lean
functions; the effectful parts (the current UTC time, the UUID freshly
drawn at mint time, the two network calls to the payment provider) are
passed in explicitly through an `AuthEnv` record, and the fact that the
settlement query was issued is returned as an explicit boolean alongside
the HTTP outcome.

External collaborators that the source calls but whose code is not part
of this repository (the `pymacaroons` token codec, Python's `datetime`)
are modelled from the specification's description of them (Token Codec,
signature chain, ISO-8601 formatting/parsing), with the operational
details matched to the documented behaviour the source relies on.
-/

/-! ## Decimal digits and number rendering -/

def isDigitC (c : Char) : Bool := 48 ≤ c.toNat && c.toNat ≤ 57

def digitVal (c : Char) : Nat := c.toNat - 48

/-- Value of a list of decimal digit characters (most significant first). -/
def digitsVal (cs : List Char) : Nat := cs.foldl (fun a c => a * 10 + digitVal c) 0

def digitChar (d : Nat) : Char := Char.ofNat (48 + d)

/-- Fuel-indexed decimal rendering of a natural number (fuel ≥ n suffices). -/
def natCharsF : Nat → Nat → List Char
  | 0, _ => []
  | fuel + 1, n =>
    if n < 10 then [digitChar n] else natCharsF fuel (n / 10) ++ [digitChar (n % 10)]

/-- Decimal rendering of a natural number, most significant digit first. -/
def natChars (n : Nat) : List Char := natCharsF (n + 1) n

/-- Zero-padded decimal rendering to width `w` (model of `%0wd`). -/
def padChars (w n : Nat) : List Char :=
  List.replicate (w - (natChars n).length) '0' ++ natChars n

/-! ## Calendar arithmetic (model of Python `datetime`)

Modelled from the spec: the source's timestamps are Python `datetime`
values in UTC; the proleptic Gregorian calendar conversions below follow
the documented `datetime` semantics (ordinal day counting with the
400/100/4-year leap rules). -/

structure DateTime where
  year : Nat
  month : Nat
  day : Nat
  hour : Nat
  minute : Nat
  second : Nat
  microsecond : Nat
deriving DecidableEq, Repr

def isLeapYear (y : Nat) : Bool := y % 4 == 0 && (y % 100 != 0 || y % 400 == 0)

def daysInMonth (y m : Nat) : Nat :=
  if m == 2 then (if isLeapYear y then 29 else 28)
  else if m == 4 || m == 6 || m == 9 || m == 11 then 30
  else 31

def daysBeforeMonth (y m : Nat) : Nat :=
  (List.range (m - 1)).foldl (fun a i => a + daysInMonth y (i + 1)) 0

def daysBeforeYear (y : Nat) : Nat :=
  (y - 1) * 365 + (y - 1) / 4 - (y - 1) / 100 + (y - 1) / 400

/-- Proleptic Gregorian ordinal of a calendar date (1-01-01 is day 1). -/
def ymd2ord (y m d : Nat) : Nat := daysBeforeYear y + daysBeforeMonth y m + d

/-- Inverse of `ymd2ord` on valid ordinals (the 400-year-cycle algorithm). -/
def ord2ymd (n0 : Nat) : Nat × Nat × Nat :=
  let n := n0 - 1
  let n400 := n / 146097
  let r400 := n % 146097
  let n100 := r400 / 36524
  let r100 := r400 % 36524
  let n4 := r100 / 1461
  let r4 := r100 % 1461
  let n1 := r4 / 365
  let r1 := r4 % 365
  let year := n400 * 400 + n100 * 100 + n4 * 4 + n1 + 1
  if n1 == 4 || n100 == 4 then (year - 1, 12, 31)
  else
    let month := (r1 + 50) / 32
    let preceding := daysBeforeMonth year month
    if preceding > r1 then
      (year, month - 1, r1 - (preceding - daysInMonth year (month - 1)) + 1)
    else
      (year, month, r1 - preceding + 1)

/-- Microseconds elapsed since the calendar epoch (datetime comparison order). -/
def toMicros (dt : DateTime) : Nat :=
  ((((ymd2ord dt.year dt.month dt.day) * 24 + dt.hour) * 60 + dt.minute) * 60
      + dt.second) * 1000000 + dt.microsecond

def ofMicros (n : Nat) : DateTime :=
  let us := n % 1000000
  let totalSeconds := n / 1000000
  let s := totalSeconds % 60
  let totalMinutes := totalSeconds / 60
  let mi := totalMinutes % 60
  let totalHours := totalMinutes / 60
  let h := totalHours % 24
  let ord := totalHours / 24
  match ord2ymd ord with
  | (y, m, d) => ⟨y, m, d, h, mi, s, us⟩

/-- Model of `dt + timedelta(minutes=m)`. -/
def addMinutes (dt : DateTime) (minutes : Nat) : DateTime :=
  ofMicros (toMicros dt + minutes * 60 * 1000000)

/-- Model of `datetime.isoformat()`: `YYYY-MM-DDTHH:MM:SS` with a
`.ffffff` fractional part exactly when the microsecond field is nonzero. -/
def isoformat (dt : DateTime) : String :=
  String.mk (padChars 4 dt.year ++ '-' :: padChars 2 dt.month ++ '-' :: padChars 2 dt.day ++
    'T' :: padChars 2 dt.hour ++ ':' :: padChars 2 dt.minute ++ ':' :: padChars 2 dt.second ++
    (if dt.microsecond == 0 then [] else '.' :: padChars 6 dt.microsecond))

/-! Model of `datetime.fromisoformat` (strict CPython parser): a 10-character
`YYYY-MM-DD` date, optionally followed by one separator character and a time
`HH[:MM[:SS[.fff or .ffffff]]]`, with constructor range validation. -/

def parseDate (cs : List Char) : Option (Nat × Nat × Nat) :=
  match cs with
  | [y1, y2, y3, y4, '-', m1, m2, '-', d1, d2] =>
    if [y1, y2, y3, y4, m1, m2, d1, d2].all isDigitC then
      some (digitsVal [y1, y2, y3, y4], digitsVal [m1, m2], digitsVal [d1, d2])
    else none
  | _ => none

def parseFraction (cs : List Char) : Option Nat :=
  if cs.all isDigitC then
    if cs.length == 3 then some (digitsVal cs * 1000)
    else if cs.length == 6 then some (digitsVal cs)
    else none
  else none

def parseTimeChars (cs : List Char) : Option (Nat × Nat × Nat × Nat) :=
  match cs with
  | h1 :: h2 :: rest =>
    if isDigitC h1 && isDigitC h2 then
      let hh := digitsVal [h1, h2]
      match rest with
      | [] => some (hh, 0, 0, 0)
      | ':' :: m1 :: m2 :: rest2 =>
        if isDigitC m1 && isDigitC m2 then
          let mm := digitsVal [m1, m2]
          match rest2 with
          | [] => some (hh, mm, 0, 0)
          | ':' :: s1 :: s2 :: rest3 =>
            if isDigitC s1 && isDigitC s2 then
              let ss := digitsVal [s1, s2]
              match rest3 with
              | [] => some (hh, mm, ss, 0)
              | '.' :: frac => (parseFraction frac).map (fun us => (hh, mm, ss, us))
              | _ => none
            else none
          | _ => none
        else none
      | _ => none
    else none
  | _ => none

/-- The `datetime` constructor's range validation. -/
def mkDateTime (y m d h mi s us : Nat) : Option DateTime :=
  if 1 ≤ y && y ≤ 9999 && 1 ≤ m && m ≤ 12 && 1 ≤ d && d ≤ daysInMonth y m
      && h ≤ 23 && mi ≤ 59 && s ≤ 59 && us ≤ 999999
  then some ⟨y, m, d, h, mi, s, us⟩ else none

def fromisoformat (str : String) : Option DateTime :=
  let cs := str.data
  match parseDate (cs.take 10) with
  | none => none
  | some (y, m, d) =>
    let tcs := cs.drop 11
    if tcs.isEmpty then mkDateTime y m d 0 0 0 0
    else
      match parseTimeChars tcs with
      | none => none
      | some (h, mi, s, us) => mkDateTime y m d h mi s us

/-- Model of `str.rstrip('Z')`: remove every trailing `'Z'`. -/
def rstripZ (s : String) : String :=
  String.mk ((s.data.reverse.dropWhile (fun c => c == 'Z')).reverse)

/-! ## Macaroons (model of the pymacaroons token codec)

Modelled from the spec: the Token Codec is the external `pymacaroons`
library (not part of src/).  Per §3/§4.1 it binds an ordered list of
plaintext caveats with a running keyed-hash signature chain seeded from
the secret key and the identifier; `serialize`/`deserialize` are a
stable reversible transport encoding of identifier, location, ordered
caveats and signature; signature verification deterministically
recomputes the chain and additionally requires every first-party caveat
to be satisfied by one of the verifier's exact-match predicates. -/

/-- Injective-style numeric code of a string (model of a byte string). -/
def strCode (s : String) : Nat := s.data.foldl (fun a c => a * 1114112 + c.toNat + 1) 1

/-- Model of the HMAC used for the signature chain (a concrete keyed mix,
truncated to 256 bits like the real HMAC-SHA256 digest). -/
def hmacM (k : Nat) (msg : String) : Nat :=
  (k * 2305843009213693951 + strCode msg) % (2 ^ 256)

/-- pymacaroons derives the signing key from the user key by an HMAC with
a fixed generator string. -/
def deriveKey (key : String) : Nat := hmacM (strCode "macaroons-key-generator") key

structure Macaroon where
  location : String
  identifier : String
  caveats : List String
  signature : Nat
deriving DecidableEq, Repr

/-- Model of `Macaroon(location=..., identifier=..., key=...)`. -/
def Macaroon.create (location ident key : String) : Macaroon :=
  ⟨location, ident, [], hmacM (deriveKey key) ident⟩

/-- Model of `add_first_party_caveat`: append the caveat and extend the
signature chain. -/
def Macaroon.addFirstPartyCaveat (m : Macaroon) (c : String) : Macaroon :=
  { m with caveats := m.caveats ++ [c], signature := hmacM m.signature c }

/-- Recompute the signature chain from the key and compare with the stored
signature. -/
def verify_signature (m : Macaroon) (key : String) : Bool :=
  m.caveats.foldl hmacM (hmacM (deriveKey key) m.identifier) == m.signature

/-- Model of `Verifier.verify` with a set of `satisfy_exact` predicates:
every first-party caveat must match one of the predicates, and the
recomputed signature chain must equal the stored signature. -/
def verifierRun (preds : List String) (m : Macaroon) (key : String) : Bool :=
  m.caveats.all (fun c => preds.contains c) && verify_signature m key

/-! ### Transport encoding

Modelled from the spec: a reversible line-oriented packet encoding of
`location`, `identifier`, the ordered `cid` caveat packets, and the
`signature`, one `key value` packet per line. -/

def joinLines : List (List Char) → List Char
  | [] => []
  | [l] => l
  | l :: ls => l ++ '\n' :: joinLines ls

def serialize (m : Macaroon) : String :=
  String.mk (joinLines (("location " ++ m.location).data ::
    ("identifier " ++ m.identifier).data ::
    (m.caveats.map (fun c => ("cid " ++ c).data) ++
      [("signature ".data ++ natChars m.signature)])))

def splitLines : List Char → List (List Char)
  | [] => [[]]
  | c :: cs =>
    match splitLines cs with
    | [] => [[]]
    | l :: ls => if c == '\n' then [] :: l :: ls else (c :: l) :: ls

def breakAtSpace : List Char → Option (List Char × List Char)
  | [] => none
  | c :: cs =>
    if c == ' ' then some ([], cs)
    else (breakAtSpace cs).map (fun p => (c :: p.1, p.2))

def parseLine (l : List Char) : Option (String × String) :=
  (breakAtSpace l).map (fun p => (String.mk p.1, String.mk p.2))

def parseNat (cs : List Char) : Option Nat :=
  if cs.isEmpty then none
  else if cs.all isDigitC then some (digitsVal cs) else none

def parseBody (loc ident : String) (acc : List String) : List (String × String) → Option Macaroon
  | [("signature", sv)] => (parseNat sv.data).map (fun n => ⟨loc, ident, acc.reverse, n⟩)
  | ("cid", c) :: rest => parseBody loc ident (c :: acc) rest
  | _ => none

def parseFields : List (String × String) → Option Macaroon
  | ("location", loc) :: ("identifier", ident) :: rest => parseBody loc ident [] rest
  | _ => none

def parseLines : List (List Char) → Option (List (String × String))
  | [] => some []
  | l :: ls =>
    match parseLine l, parseLines ls with
    | some p, some ps => some (p :: ps)
    | _, _ => none

def deserialize (s : String) : Option Macaroon :=
  match parseLines (splitLines s.data) with
  | none => none
  | some fields => parseFields fields

/-! ## The authentication gate (`src/utils/l402_auth.py`) -/

/-- One HTTP error outcome (`HTTPException`): status code, detail string,
and the optional `WWW-Authenticate` header value. -/
structure HTTPExc where
  status : Nat
  detail : String
  wwwAuthenticate : Option String := none
deriving DecidableEq, Repr

/-- Outcome of the provider's settlement query for a payment hash:
a successful JSON response with its `paid` field, or one of the two
`httpx` failure modes. -/
inductive PaymentResult where
  | ok (paid : Bool)
  | httpStatusError
  | requestError
deriving DecidableEq, Repr

/-- Model of `verify_payment`: surface the `paid` flag, mapping either
provider failure to a 502. -/
def verify_payment (r : PaymentResult) : Except HTTPExc Bool :=
  match r with
  | .ok paid => .ok paid
  | .httpStatusError => .error ⟨502, "Error verifying payment status.", none⟩
  | .requestError => .error ⟨502, "Error verifying payment status.", none⟩

/-- `startswith` on strings. -/
def startsWithL : List Char → List Char → Bool
  | [], _ => true
  | _ :: _, [] => false
  | p :: ps, c :: cs => p == c && startsWithL ps cs

def startsWithS (p s : String) : Bool := startsWithL p.data s.data

/-- Everything after the first occurrence of `sep` (model of
`s.split(sep, 1)[1]`, used only where the separator is present). -/
def afterSepL (sep : List Char) : List Char → List Char
  | [] => []
  | c :: cs =>
    if startsWithL sep (c :: cs) then (c :: cs).drop sep.length
    else afterSepL sep cs

/-- The caveat value text: what follows the first `" = "` delimiter. -/
def caveatValue (c : String) : String := String.mk (afterSepL " = ".data c.data)

/-- The three extraction slots filled by the caveat loop. -/
structure Extracted where
  payment_hash : Option String := none
  expiration : Option String := none
  scope : Option String := none
deriving DecidableEq, Repr

/-- One iteration of the caveat extraction loop (the `if`/`elif` chain). -/
def extractStep (acc : Extracted) (c : String) : Extracted :=
  if startsWithS "payment_hash = " c then { acc with payment_hash := some (caveatValue c) }
  else if startsWithS "expiration = " c then { acc with expiration := some (caveatValue c) }
  else if startsWithS "scope = " c then { acc with scope := some (caveatValue c) }
  else acc

def extractCaveats (cs : List String) : Extracted := cs.foldl extractStep {}

/-- Python truthiness of the extracted slot: `None` and `""` are falsy. -/
def pyFalsy : Option String → Bool
  | none => true
  | some s => s == ""

/-- The `missing_caveats` list, in the order the source builds it. -/
def missingOf (ex : Extracted) : List String :=
  (if pyFalsy ex.payment_hash then ["payment_hash"] else []) ++
  (if pyFalsy ex.expiration then ["expiration"] else []) ++
  (if pyFalsy ex.scope then ["scope"] else [])

/-- The signature verification block: `satisfy_exact` on the three
extracted values, then `verifier.verify`. -/
def checkSignatureStage (key : String) (m : Macaroon) (ph et sc : String) : Except HTTPExc Unit :=
  if verifierRun ["payment_hash = " ++ ph, "expiration = " ++ et, "scope = " ++ sc] m key
  then .ok () else .error ⟨401, "Invalid macaroon signature.", none⟩

/-- The payment block: `verify_payment` then the `is_paid` test. -/
def checkPaymentStage (pr : PaymentResult) : Except HTTPExc Unit :=
  match verify_payment pr with
  | .error e => .error e
  | .ok paid => if paid then .ok () else .error ⟨402, "Payment required but not completed.", none⟩

/-- The expiration block: parse the caveat (with trailing `Z` stripped) and
reject timestamps strictly before now. -/
def checkExpiration (now : DateTime) (et : String) : Except HTTPExc Unit :=
  match fromisoformat (rstripZ et) with
  | none => .error ⟨400, "Invalid expiration time format.", none⟩
  | some dt =>
    if toMicros now > toMicros dt then .error ⟨401, "Macaroon has expired.", none⟩
    else .ok ()

/-- The scope block: exact string comparison with the requested path. -/
def checkScope (scope path : String) : Except HTTPExc Unit :=
  if scope ≠ path then .error ⟨403, "Access to the requested resource is forbidden.", none⟩
  else .ok ()

/-- The effectful inputs of one call to the gate: the current UTC time,
the provider's answer to the settlement query, the provider's freshly
created invoice `(payment_request, payment_hash)`, the fresh UUID, and
the process secret key. -/
structure AuthEnv where
  now : DateTime
  payment : PaymentResult
  invoice : String × String
  identifier : String
  secretKey : String

/-- Model of `create_macaroon_with_caveats`. -/
def create_macaroon_with_caveats (ident : String) (now : DateTime) (payment_hash : String)
    (expiration_minutes : Nat) (scope : String) (key : String) : Macaroon :=
  let macaroon := Macaroon.create "lighning_goats" ident key
  let macaroon := macaroon.addFirstPartyCaveat ("payment_hash = " ++ payment_hash)
  let expiration_time := isoformat (addMinutes now expiration_minutes) ++ "Z"
  let macaroon := macaroon.addFirstPartyCaveat ("expiration = " ++ expiration_time)
  macaroon.addFirstPartyCaveat ("scope = " ++ scope)

/-- The macaroon minted by the challenge branch (30-minute TTL, scope
bound to the requested path, payment hash from the fresh invoice). -/
def challengeMacaroon (env : AuthEnv) (path : String) : Macaroon :=
  create_macaroon_with_caveats env.identifier env.now env.invoice.2 30 path env.secretKey

/-- Model of `l402_authentication`.  The first component records whether
the settlement query to the payment provider was issued; the second is
the HTTP outcome (`.ok ()` = request passes through to the handler). -/
def l402_authentication (env : AuthEnv) (authorization : Option String) (path : String) :
    Bool × Except HTTPExc Unit :=
  match authorization with
  | some auth =>
    if startsWithS "LSAT " auth then
      match deserialize (String.mk (afterSepL " ".data auth.data)) with
      | none => (false, .error ⟨400, "Invalid macaroon.", none⟩)
      | some macaroon =>
        let ex := extractCaveats macaroon.caveats
        let missing := missingOf ex
        if missing ≠ [] then
          (false, .error ⟨401,
            "Macaroon missing caveats: " ++ String.intercalate ", " missing ++ ".", none⟩)
        else
          match checkSignatureStage env.secretKey macaroon (ex.payment_hash.getD "")
              (ex.expiration.getD "") (ex.scope.getD "") with
          | .error e => (false, .error e)
          | .ok () =>
            match checkPaymentStage env.payment with
            | .error e => (true, .error e)
            | .ok () =>
              match checkExpiration env.now (ex.expiration.getD "") with
              | .error e => (true, .error e)
              | .ok () =>
                match checkScope (ex.scope.getD "") path with
                | .error e => (true, .error e)
                | .ok () => (true, .ok ())
    else (false, .error ⟨401, "Invalid LSAT header format.", none⟩)
  | none =>
    let macaroon := challengeMacaroon env path
    (false, .error ⟨402, "Payment Required",
      some ("LSAT macaroon=\"" ++ serialize macaroon ++ "\", invoice=\"" ++
        env.invoice.1 ++ "\"")⟩)

/-- The part of the verification pipeline that runs before the settlement
query (steps 2–5 of the spec's state machine): header scheme, token
decoding, caveat presence, signature.  It depends only on the secret key
and the credential header. -/
def sigStagePasses (key auth : String) : Bool :=
  startsWithS "LSAT " auth &&
    match deserialize (String.mk (afterSepL " ".data auth.data)) with
    | none => false
    | some m =>
      let ex := extractCaveats m.caveats
      (missingOf ex).isEmpty &&
        verifierRun ["payment_hash = " ++ ex.payment_hash.getD "",
          "expiration = " ++ ex.expiration.getD "",
          "scope = " ++ ex.scope.getD ""] m key


/-- Modelled from the spec: the three required caveat keys and the
missing-key computation as the spec states it (the required keys whose
extracted value is absent). -/
def missingSpec (ex : Extracted) : List String :=
  ["payment_hash", "expiration", "scope"].filter fun k =>
    if k = "payment_hash" then pyFalsy ex.payment_hash
    else if k = "expiration" then pyFalsy ex.expiration
    else pyFalsy ex.scope

/-- Modelled from the spec: an ISO-8601 timestamp is second-precision
exactly when it carries no fractional-seconds part, i.e. no dot. -/
def hasFractionalSeconds (s : String) : Bool := s.data.contains '.'

/-! ### Concrete fixtures used by the claim-level theorems -/

/-- An already-expired but correctly signed token. -/
def mFixture1 : Macaroon :=
  (((Macaroon.create "lighning_goats" "cid-1" "testkey").addFirstPartyCaveat
    "payment_hash = abc123").addFirstPartyCaveat
    "expiration = 2020-01-01T00:00:00Z").addFirstPartyCaveat "scope = /protected-resource"

def envFixture1 : AuthEnv :=
  ⟨⟨2024, 1, 1, 12, 0, 0, 0⟩, .ok true, ("inv1", "abc123"), "cid-1", "testkey"⟩

/-- A far-future, correctly signed token scoped to `/a`. -/
def mFixture3 : Macaroon :=
  (((Macaroon.create "lighning_goats" "cid-3" "testkey").addFirstPartyCaveat
    "payment_hash = abc123").addFirstPartyCaveat
    "expiration = 2099-01-01T00:00:00Z").addFirstPartyCaveat "scope = /a"

def envFixture3 : AuthEnv :=
  ⟨⟨2024, 1, 1, 12, 0, 0, 0⟩, .ok true, ("inv3", "abc123"), "cid-3", "testkey"⟩

/-- Tokens whose expiration sits one second on either side of `now`. -/
def mFixture4a : Macaroon :=
  (((Macaroon.create "lighning_goats" "cid-4" "testkey").addFirstPartyCaveat
    "payment_hash = abc123").addFirstPartyCaveat
    "expiration = 2024-01-01T12:00:00Z").addFirstPartyCaveat "scope = /p"

def mFixture4b : Macaroon :=
  (((Macaroon.create "lighning_goats" "cid-4" "testkey").addFirstPartyCaveat
    "payment_hash = abc123").addFirstPartyCaveat
    "expiration = 2024-01-01T12:00:02Z").addFirstPartyCaveat "scope = /p"

def envFixture4 : AuthEnv :=
  ⟨⟨2024, 1, 1, 12, 0, 1, 0⟩, .ok true, ("inv4", "abc123"), "cid-4", "testkey"⟩

/-- A correctly signed token carrying only `payment_hash` and `scope`. -/
def mFixture5 : Macaroon :=
  ((Macaroon.create "lighning_goats" "cid-5" "testkey").addFirstPartyCaveat
    "payment_hash = abc123").addFirstPartyCaveat "scope = /a"

def envFixture5 : AuthEnv :=
  ⟨⟨2024, 1, 1, 12, 0, 0, 0⟩, .ok true, ("inv5", "abc123"), "cid-5", "testkey"⟩

/-- A mint-time instant with a nonzero microsecond component. -/
def envFixture6 : AuthEnv :=
  ⟨⟨2024, 1, 1, 12, 0, 0, 500000⟩, .ok true, ("inv6", "hash6"), "cid-6", "testkey"⟩

/-- A correctly signed token in which the `scope` caveat occurs twice with
the same value. -/
def mFixture7 : Macaroon :=
  ((((Macaroon.create "lighning_goats" "cid-7" "testkey").addFirstPartyCaveat
    "payment_hash = abc123").addFirstPartyCaveat
    "expiration = 2099-01-01T00:00:00Z").addFirstPartyCaveat
    "scope = /p").addFirstPartyCaveat "scope = /p"

def envFixture7 : AuthEnv :=
  ⟨⟨2024, 1, 1, 12, 0, 0, 0⟩, .ok true, ("inv7", "abc123"), "cid-7", "testkey"⟩

/-- A well-formed token for exercising the provider-failure outcomes. -/
def mFixture8 : Macaroon :=
  (((Macaroon.create "lighning_goats" "cid-8" "testkey").addFirstPartyCaveat
    "payment_hash = abc123").addFirstPartyCaveat
    "expiration = 2099-01-01T00:00:00Z").addFirstPartyCaveat "scope = /p"

def envFixture8 : AuthEnv :=
  ⟨⟨2024, 1, 1, 12, 0, 0, 0⟩, .httpStatusError, ("inv8", "abc123"), "cid-8", "testkey"⟩

def envFixture9 : AuthEnv :=
  ⟨⟨2024, 1, 1, 12, 0, 0, 0⟩, .ok true, ("inv9", "hash9"), "cid-9", "testkey"⟩

/-- A correctly signed token whose `expiration` caveat has an empty value. -/
def mFixture10 : Macaroon :=
  (((Macaroon.create "lighning_goats" "cid-10" "testkey").addFirstPartyCaveat
    "payment_hash = abc123").addFirstPartyCaveat
    "expiration = ").addFirstPartyCaveat "scope = /p"

def envFixture10 : AuthEnv :=
  ⟨⟨2024, 1, 1, 12, 0, 0, 0⟩, .ok true, ("inv10", "abc123"), "cid-10", "testkey"⟩

deriving instance DecidableEq for Except

/-! ## Helper lemmas: decimal rendering -/

theorem digitVal_digitChar {d : Nat} (h : d < 10) : digitVal (digitChar d) = d := by
  interval_cases d <;> decide

theorem isDigitC_digitChar {d : Nat} (h : d < 10) : isDigitC (digitChar d) = true := by
  interval_cases d <;> decide

theorem digitsVal_append_singleton (xs : List Char) (c : Char) :
    digitsVal (xs ++ [c]) = digitsVal xs * 10 + digitVal c := by
  simp [digitsVal, List.foldl_append]

theorem natCharsF_ok : ∀ fuel n, n ≤ fuel →
    natCharsF (fuel + 1) n ≠ [] ∧ (∀ c ∈ natCharsF (fuel + 1) n, isDigitC c = true) ∧
      digitsVal (natCharsF (fuel + 1) n) = n := by
  intro fuel
  induction fuel using Nat.strong_induction_on with
  | _ fuel ih =>
    intro n hn
    rw [natCharsF]
    by_cases h10 : n < 10
    · simp only [if_pos h10]
      refine ⟨by simp, ?_, ?_⟩
      · intro c hc
        simp only [List.mem_singleton] at hc
        subst hc
        exact isDigitC_digitChar h10
      · simp [digitsVal, digitVal_digitChar h10]
    · simp only [if_neg h10]
      obtain ⟨fuel', rfl⟩ : ∃ f, fuel = f + 1 := ⟨fuel - 1, by omega⟩
      have hdiv : n / 10 ≤ fuel' := by
        have h1 : n / 10 < n := Nat.div_lt_self (by omega) (by omega)
        omega
      obtain ⟨hne, hdig, hval⟩ := ih fuel' (by omega) (n / 10) hdiv
      refine ⟨by simp, ?_, ?_⟩
      · intro c hc
        rcases List.mem_append.mp hc with h | h
        · exact hdig c h
        · simp only [List.mem_singleton] at h
          subst h
          exact isDigitC_digitChar (Nat.mod_lt _ (by omega))
      · rw [digitsVal_append_singleton, hval, digitVal_digitChar (Nat.mod_lt _ (by omega))]
        omega

theorem natChars_ne_nil (n : Nat) : natChars n ≠ [] :=
  (natCharsF_ok n n le_rfl).1

theorem natChars_digits (n : Nat) : ∀ c ∈ natChars n, isDigitC c = true :=
  (natCharsF_ok n n le_rfl).2.1

theorem digitsVal_natChars (n : Nat) : digitsVal (natChars n) = n :=
  (natCharsF_ok n n le_rfl).2.2

theorem parseNat_natChars (n : Nat) : parseNat (natChars n) = some n := by
  have hne := natChars_ne_nil n
  have hdig := natChars_digits n
  simp only [parseNat, List.isEmpty_iff, hne, if_false, List.all_eq_true.mpr hdig, if_true,
    digitsVal_natChars]

theorem isDigitC_ne_newline {c : Char} (h : isDigitC c = true) : c ≠ '\n' := by
  intro hc
  subst hc
  exact absurd h (by decide)

theorem padChars_digits_or_zero (w n : Nat) :
    ∀ c ∈ padChars w n, isDigitC c = true := by
  intro c hc
  rcases List.mem_append.mp hc with h | h
  · rw [List.eq_of_mem_replicate h]
    decide
  · exact natChars_digits n c h

/-! ## Helper lemmas: the transport encoding round-trips -/

theorem splitLines_ne_nil (cs : List Char) : splitLines cs ≠ [] := by
  induction cs with
  | nil => simp [splitLines]
  | cons c cs ih =>
    rw [splitLines]
    rcases h : splitLines cs with _ | ⟨l, ls⟩
    · exact absurd h ih
    · by_cases hc : c == '\n' <;> simp [hc]

theorem splitLines_prepend {l : List Char} (hl : '\n' ∉ l) :
    ∀ {cs r rs}, splitLines cs = r :: rs → splitLines (l ++ cs) = (l ++ r) :: rs := by
  induction l with
  | nil => intro cs r rs h; simpa using h
  | cons a l ih =>
    intro cs r rs h
    have ha : a ≠ '\n' := fun hh => hl (hh ▸ List.mem_cons_self a l)
    have hl' : '\n' ∉ l := fun hh => hl (List.mem_cons_of_mem a hh)
    have := ih hl' h
    rw [List.cons_append, splitLines, this]
    simp [ha]

theorem splitLines_joinLines : ∀ ls : List (List Char), ls ≠ [] →
    (∀ l ∈ ls, '\n' ∉ l) → splitLines (joinLines ls) = ls := by
  intro ls
  induction ls with
  | nil => intro h; exact absurd rfl h
  | cons l ls ih =>
    intro _ hmem
    have hl : '\n' ∉ l := hmem l (List.mem_cons_self l ls)
    rcases ls with _ | ⟨l2, ls'⟩
    · show splitLines (joinLines [l]) = [l]
      have : splitLines ([] : List Char) = [] :: [] := rfl
      have h2 := splitLines_prepend hl this
      simpa using h2
    · have hrest : splitLines (joinLines (l2 :: ls')) = l2 :: ls' := by
        refine ih (by simp) ?_
        intro x hx
        exact hmem x (List.mem_cons_of_mem l hx)
      have hJ : joinLines (l :: l2 :: ls') = l ++ '\n' :: joinLines (l2 :: ls') := rfl
      have hsplit : splitLines ('\n' :: joinLines (l2 :: ls')) = [] :: l2 :: ls' := by
        rw [splitLines, hrest]
        simp
      rw [hJ, splitLines_prepend hl hsplit]
      simp

theorem breakAtSpace_eq {k : List Char} (hk : ' ' ∉ k) (v : List Char) :
    breakAtSpace (k ++ ' ' :: v) = some (k, v) := by
  induction k with
  | nil => simp [breakAtSpace]
  | cons a l ih =>
    have ha : a ≠ ' ' := fun hh => hk (hh ▸ List.mem_cons_self a l)
    have hl : ' ' ∉ l := fun hh => hk (List.mem_cons_of_mem a hh)
    rw [List.cons_append, breakAtSpace]
    simp [ha, ih hl]

theorem parseLine_keyed {k : String} (hk : ' ' ∉ k.data) (v : String) :
    parseLine (k.data ++ ' ' :: v.data) = some (k, v) := by
  rw [parseLine, breakAtSpace_eq hk]
  rfl


theorem data_key_line (k v : String) (hk : (k ++ " ").data = k.data ++ [' ']) :
    ((k ++ " ") ++ v).data = k.data ++ ' ' :: v.data := by
  rw [String.data_append, hk, List.append_assoc]
  rfl

theorem parseLine_cid (c : String) : parseLine (("cid " ++ c).data) = some ("cid", c) := by
  have h : ("cid " ++ c).data = "cid".data ++ ' ' :: c.data :=
    data_key_line "cid" c (by decide)
  rw [h, parseLine_keyed (by decide)]

theorem parseLine_sig (n : Nat) :
    parseLine ("signature ".data ++ natChars n) = some ("signature", String.mk (natChars n)) := by
  have h : "signature ".data ++ natChars n =
      "signature".data ++ ' ' :: (String.mk (natChars n)).data := rfl
  rw [h, parseLine_keyed (by decide)]

theorem parseBody_spec (loc ident : String) (n : Nat) :
    ∀ (cs : List String) (acc : List String),
      parseBody loc ident acc
        (cs.map (fun c => ("cid", c)) ++ [("signature", String.mk (natChars n))]) =
      some ⟨loc, ident, acc.reverse ++ cs, n⟩ := by
  intro cs
  induction cs with
  | nil =>
    intro acc
    show parseBody loc ident acc [("signature", String.mk (natChars n))] = _
    simp [parseBody, parseNat_natChars n]
  | cons c cs ih =>
    intro acc
    show parseBody loc ident acc (("cid", c) :: _) = _
    rw [parseBody]
    have h := ih (c :: acc)
    simp only [List.append_eq] at h ⊢
    rw [h]
    simp

theorem parseLines_caveat_lines (cs : List String) (sl : List Char) (p : String × String)
    (h : parseLine sl = some p) :
    parseLines (cs.map (fun c => ("cid " ++ c).data) ++ [sl])
      = some (cs.map (fun c => ("cid", c)) ++ [p]) := by
  induction cs with
  | nil =>
    simp only [List.map_nil, List.nil_append]
    rw [parseLines, h, parseLines]
  | cons c cs ih =>
    simp only [List.map_cons, List.cons_append]
    rw [parseLines, parseLine_cid c, ih]

/-- The serialization round-trip: any macaroon whose textual fields avoid
the line separator deserializes back to itself. -/
theorem deserialize_serialize (m : Macaroon) (hl : '\n' ∉ m.location.data)
    (hi : '\n' ∉ m.identifier.data) (hc : ∀ c ∈ m.caveats, '\n' ∉ c.data) :
    deserialize (serialize m) = some m := by
  have hlocline : ("location " ++ m.location).data = "location".data ++ ' ' :: m.location.data :=
    data_key_line "location" m.location (by decide)
  have hidline : ("identifier " ++ m.identifier).data =
      "identifier".data ++ ' ' :: m.identifier.data :=
    data_key_line "identifier" m.identifier (by decide)
  have hsplit : splitLines ((serialize m).data) =
      ("location " ++ m.location).data :: ("identifier " ++ m.identifier).data ::
        (m.caveats.map (fun c => ("cid " ++ c).data) ++
          [("signature ".data ++ natChars m.signature)]) := by
    show splitLines (joinLines _) = _
    apply splitLines_joinLines
    · simp
    · intro l hlmem
      rcases List.mem_cons.mp hlmem with rfl | hlmem1
      · rw [hlocline]
        intro hmem
        rcases List.mem_append.mp hmem with h | h
        · revert h; decide
        · rcases List.mem_cons.mp h with h' | h'
          · exact absurd h'.symm (by decide)
          · exact hl h'
      rcases List.mem_cons.mp hlmem1 with rfl | hlmem2
      · rw [hidline]
        intro hmem
        rcases List.mem_append.mp hmem with h | h
        · revert h; decide
        · rcases List.mem_cons.mp h with h' | h'
          · exact absurd h'.symm (by decide)
          · exact hi h'
      rcases List.mem_append.mp hlmem2 with hmap | hsig
      · obtain ⟨c, hcm, rfl⟩ := List.mem_map.mp hmap
        have hcd : ("cid " ++ c).data = "cid".data ++ ' ' :: c.data :=
          data_key_line "cid" c (by decide)
        rw [hcd]
        intro hmem
        rcases List.mem_append.mp hmem with h | h
        · revert h; decide
        · rcases List.mem_cons.mp h with h' | h'
          · exact absurd h'.symm (by decide)
          · exact hc c hcm h'
      · rw [List.mem_singleton.mp hsig]
        intro hmem
        rcases List.mem_append.mp hmem with h | h
        · revert h; decide
        · exact isDigitC_ne_newline (natChars_digits m.signature _ h) rfl
  have hparse1 : parseLine (("location " ++ m.location).data) = some ("location", m.location) := by
    rw [hlocline, parseLine_keyed (by decide)]
  have hparse2 : parseLine (("identifier " ++ m.identifier).data) =
      some ("identifier", m.identifier) := by
    rw [hidline, parseLine_keyed (by decide)]
  have hlines : parseLines (splitLines ((serialize m).data)) =
      some (("location", m.location) :: ("identifier", m.identifier) ::
        (m.caveats.map (fun c => ("cid", c)) ++
          [("signature", String.mk (natChars m.signature))])) := by
    rw [hsplit]
    rw [parseLines, hparse1]
    rw [parseLines, hparse2]
    rw [parseLines_caveat_lines m.caveats _ _ (parseLine_sig m.signature)]
  rw [deserialize, hlines]
  show parseFields _ = _
  rw [parseFields]
  rw [parseBody_spec m.location m.identifier m.signature m.caveats []]
  rfl

/-! ## Helper lemmas: prefixes, caveat values, extraction -/

theorem startsWithL_append_self (p rest : List Char) : startsWithL p (p ++ rest) = true := by
  induction p with
  | nil => rfl
  | cons a l ih => simp [startsWithL, ih]

theorem startsWithS_append_self (p v : String) : startsWithS p (p ++ v) = true := by
  rw [startsWithS, String.data_append]
  exact startsWithL_append_self p.data v.data

theorem startsWithS_ne_first {p s : String} {a b : Char} {pd sd : List Char}
    (hp : p.data = a :: pd) (hs : s.data = b :: sd) (h : (a == b) = false) :
    startsWithS p s = false := by
  rw [startsWithS, hp, hs, startsWithL, h, Bool.false_and]

theorem afterSepL_eq_marker (v : List Char) :
    ∀ k : List Char, ' ' ∉ k → afterSepL " = ".data (k ++ ' ' :: '=' :: ' ' :: v) = v := by
  intro k
  induction k with
  | nil =>
    intro _
    rw [List.nil_append, afterSepL]
    simp [startsWithL]
  | cons a l ih =>
    intro hk
    have ha : (a == ' ') = false := by
      simp only [beq_eq_false_iff_ne, ne_eq]
      intro hh
      exact hk (hh ▸ List.mem_cons_self a l)
    have hl : ' ' ∉ l := fun hh => hk (List.mem_cons_of_mem a hh)
    rw [List.cons_append, afterSepL]
    have hsw : startsWithL " = ".data (a :: (l ++ ' ' :: '=' :: ' ' :: v)) = false := by
      show startsWithL (' ' :: _) _ = false
      rw [startsWithL]
      have hfla : (' ' == a) = false := by
        simp only [beq_eq_false_iff_ne, ne_eq] at ha ⊢
        exact fun hh => ha hh.symm
      rw [hfla, Bool.false_and]
    rw [hsw]
    simp only [Bool.false_eq_true, if_false]
    exact ih hl

theorem caveatValue_ph (v : String) : caveatValue ("payment_hash = " ++ v) = v := by
  rw [caveatValue]
  have hd : ("payment_hash = " ++ v).data =
      "payment_hash".data ++ ' ' :: '=' :: ' ' :: v.data := by
    rw [String.data_append]
    rfl
  rw [hd, afterSepL_eq_marker v.data "payment_hash".data (by decide)]

theorem caveatValue_exp (v : String) : caveatValue ("expiration = " ++ v) = v := by
  rw [caveatValue]
  have hd : ("expiration = " ++ v).data =
      "expiration".data ++ ' ' :: '=' :: ' ' :: v.data := by
    rw [String.data_append]
    rfl
  rw [hd, afterSepL_eq_marker v.data "expiration".data (by decide)]

theorem caveatValue_scope (v : String) : caveatValue ("scope = " ++ v) = v := by
  rw [caveatValue]
  have hd : ("scope = " ++ v).data = "scope".data ++ ' ' :: '=' :: ' ' :: v.data := by
    rw [String.data_append]
    rfl
  rw [hd, afterSepL_eq_marker v.data "scope".data (by decide)]

theorem extractStep_ph (acc : Extracted) (v : String) :
    extractStep acc ("payment_hash = " ++ v) = { acc with payment_hash := some v } := by
  rw [extractStep, startsWithS_append_self]
  simp [caveatValue_ph v]

theorem extractStep_exp (acc : Extracted) (v : String) :
    extractStep acc ("expiration = " ++ v) = { acc with expiration := some v } := by
  have h1 : startsWithS "payment_hash = " ("expiration = " ++ v) = false :=
    startsWithS_ne_first rfl (by rw [String.data_append]; rfl) (by decide)
  rw [extractStep, h1]
  rw [startsWithS_append_self]
  simp [caveatValue_exp v]

theorem extractStep_scope (acc : Extracted) (v : String) :
    extractStep acc ("scope = " ++ v) = { acc with scope := some v } := by
  have h1 : startsWithS "payment_hash = " ("scope = " ++ v) = false :=
    startsWithS_ne_first rfl (by rw [String.data_append]; rfl) (by decide)
  have h2 : startsWithS "expiration = " ("scope = " ++ v) = false :=
    startsWithS_ne_first rfl (by rw [String.data_append]; rfl) (by decide)
  rw [extractStep, h1, h2]
  rw [startsWithS_append_self]
  simp [caveatValue_scope v]

theorem extractCaveats_append (cs : List String) (c : String) :
    extractCaveats (cs ++ [c]) = extractStep (extractCaveats cs) c := by
  simp [extractCaveats, List.foldl_append]

theorem no_newline_append {a b : String} (ha : '\n' ∉ a.data) (hb : '\n' ∉ b.data) :
    '\n' ∉ (a ++ b).data := by
  rw [String.data_append]
  intro h
  rcases List.mem_append.mp h with h' | h'
  · exact ha h'
  · exact hb h'

/-! ## Helper lemmas: isoformat characters, signature chain -/

theorem isoformat_data (dt : DateTime) :
    (isoformat dt).data =
      padChars 4 dt.year ++ '-' :: padChars 2 dt.month ++ '-' :: padChars 2 dt.day ++
      'T' :: padChars 2 dt.hour ++ ':' :: padChars 2 dt.minute ++ ':' :: padChars 2 dt.second ++
      (if dt.microsecond == 0 then [] else '.' :: padChars 6 dt.microsecond) := rfl

theorem isoformat_chars (dt : DateTime) :
    ∀ c ∈ (isoformat dt).data,
      isDigitC c = true ∨ c = '-' ∨ c = 'T' ∨ c = ':' ∨ c = '.' := by
  intro c hc
  rw [isoformat_data] at hc
  rcases List.mem_append.mp hc with h | h
  rotate_left
  · by_cases hz : dt.microsecond == 0
    · rw [if_pos hz] at h
      exact absurd h (List.not_mem_nil c)
    · rw [if_neg hz] at h
      rcases List.mem_cons.mp h with rfl | h'
      · exact Or.inr (Or.inr (Or.inr (Or.inr rfl)))
      · exact Or.inl (padChars_digits_or_zero 6 dt.microsecond c h')
  rcases List.mem_append.mp h with h | h
  rotate_left
  · rcases List.mem_cons.mp h with rfl | h'
    · exact Or.inr (Or.inr (Or.inr (Or.inl rfl)))
    · exact Or.inl (padChars_digits_or_zero 2 dt.second c h')
  rcases List.mem_append.mp h with h | h
  rotate_left
  · rcases List.mem_cons.mp h with rfl | h'
    · exact Or.inr (Or.inr (Or.inr (Or.inl rfl)))
    · exact Or.inl (padChars_digits_or_zero 2 dt.minute c h')
  rcases List.mem_append.mp h with h | h
  rotate_left
  · rcases List.mem_cons.mp h with rfl | h'
    · exact Or.inr (Or.inr (Or.inl rfl))
    · exact Or.inl (padChars_digits_or_zero 2 dt.hour c h')
  rcases List.mem_append.mp h with h | h
  rotate_left
  · rcases List.mem_cons.mp h with rfl | h'
    · exact Or.inr (Or.inl rfl)
    · exact Or.inl (padChars_digits_or_zero 2 dt.day c h')
  rcases List.mem_append.mp h with h | h
  · exact Or.inl (padChars_digits_or_zero 4 dt.year c h)
  · rcases List.mem_cons.mp h with rfl | h'
    · exact Or.inr (Or.inl rfl)
    · exact Or.inl (padChars_digits_or_zero 2 dt.month c h')

theorem isoformat_no_newline (dt : DateTime) : '\n' ∉ (isoformat dt).data := by
  intro h
  rcases isoformat_chars dt '\n' h with hd | hd | hd | hd | hd
  · exact absurd hd (by decide)
  all_goals exact absurd hd (by decide)

theorem verify_signature_create (loc ident key : String) :
    verify_signature (Macaroon.create loc ident key) key = true := by
  simp [verify_signature, Macaroon.create]

theorem verify_signature_addCaveat (m : Macaroon) (c key : String)
    (h : verify_signature m key = true) :
    verify_signature (m.addFirstPartyCaveat c) key = true := by
  simp only [verify_signature, Macaroon.addFirstPartyCaveat, List.foldl_append,
    List.foldl_cons, List.foldl_nil, beq_iff_eq] at h ⊢
  rw [h]

theorem create_macaroon_caveats (ident : String) (now : DateTime) (ph : String)
    (em : Nat) (sc key : String) :
    (create_macaroon_with_caveats ident now ph em sc key).caveats =
      ["payment_hash = " ++ ph, "expiration = " ++ (isoformat (addMinutes now em) ++ "Z"),
       "scope = " ++ sc] := by
  simp [create_macaroon_with_caveats, Macaroon.create, Macaroon.addFirstPartyCaveat]

theorem create_macaroon_verifies (ident : String) (now : DateTime) (ph : String)
    (em : Nat) (sc key : String) :
    verify_signature (create_macaroon_with_caveats ident now ph em sc key) key = true := by
  apply verify_signature_addCaveat
  apply verify_signature_addCaveat
  apply verify_signature_addCaveat
  exact verify_signature_create _ _ _

/-! ## Helper lemmas: pipeline reduction -/

theorem l402_reduction (env : AuthEnv) (auth path : String) (m : Macaroon) (ph et sc : String)
    (h1 : startsWithS "LSAT " auth = true)
    (h2 : deserialize (String.mk (afterSepL " ".data auth.data)) = some m)
    (h3 : extractCaveats m.caveats = ⟨some ph, some et, some sc⟩)
    (hph : ph ≠ "") (het : et ≠ "") (hsc : sc ≠ "")
    (h4 : verifierRun ["payment_hash = " ++ ph, "expiration = " ++ et, "scope = " ++ sc] m
      env.secretKey = true) :
    l402_authentication env (some auth) path =
      (match checkPaymentStage env.payment with
       | .error e => (true, Except.error e)
       | .ok _ =>
         match checkExpiration env.now et with
         | .error e => (true, .error e)
         | .ok _ =>
           match checkScope sc path with
           | .error e => (true, .error e)
           | .ok _ => (true, .ok ())) := by
  have hmiss : missingOf ⟨some ph, some et, some sc⟩ = [] := by
    simp [missingOf, pyFalsy, hph, het, hsc]
  simp only [l402_authentication, h1, if_true, h2, h3, hmiss, Option.getD_some,
    checkSignatureStage, h4, ne_eq, not_true_eq_false, if_false]
  rfl

theorem l402_tail_fst (pr : PaymentResult) (now : DateTime) (et sc p2 : String) :
    (match checkPaymentStage pr with
     | .error e => (true, (Except.error e : Except HTTPExc Unit))
     | .ok _ =>
       match checkExpiration now et with
       | .error e => (true, .error e)
       | .ok _ =>
         match checkScope sc p2 with
         | .error e => (true, .error e)
         | .ok _ => (true, .ok ())).1 = true := by
  rcases checkPaymentStage pr with e | u
  · rfl
  · rcases checkExpiration now et with e | u2
    · rfl
    · rcases checkScope sc p2 with e | u3 <;> rfl

theorem l402_queried_eq_sigStage (env : AuthEnv) (auth path : String) :
    (l402_authentication env (some auth) path).1 = sigStagePasses env.secretKey auth := by
  rw [l402_authentication, sigStagePasses]
  by_cases h1 : startsWithS "LSAT " auth = true
  · simp only [h1, if_true, Bool.true_and]
    cases h2 : deserialize (String.mk (afterSepL " ".data auth.data)) with
    | none => rfl
    | some m =>
      by_cases hm : missingOf (extractCaveats m.caveats) = []
      · simp only [hm, ne_eq, not_true_eq_false, if_false, List.isEmpty_nil, Bool.true_and]
        by_cases hv : verifierRun ["payment_hash = " ++ (extractCaveats m.caveats).payment_hash.getD "",
            "expiration = " ++ (extractCaveats m.caveats).expiration.getD "",
            "scope = " ++ (extractCaveats m.caveats).scope.getD ""] m env.secretKey = true
        · simp only [checkSignatureStage, hv, if_true]
          exact l402_tail_fst env.payment env.now _ _ path
        · simp only [checkSignatureStage, Bool.not_eq_true] at hv
          simp only [checkSignatureStage, hv, Bool.false_eq_true, if_false]
      · simp only [hm, ne_eq, if_true]
        have : (missingOf (extractCaveats m.caveats)).isEmpty = false := by
          rw [List.isEmpty_eq_false_iff_exists_mem]
          rcases List.exists_mem_of_ne_nil _ hm with ⟨x, hx⟩
          exact ⟨x, hx⟩
        simp [this, hm]
  · simp only [Bool.not_eq_true] at h1
    simp [h1]

/-! ## Claim-level theorems -/

set_option maxRecDepth 200000 in
/-- C1 counterexample: a correctly signed token whose expiration (2020)
is already long past at verification time (2024) still causes the
settlement query to the payment provider to be issued (first component
`true`), before the verifier reports the token expired. -/
theorem C1_counterexample :
    fromisoformat (rstripZ "2020-01-01T00:00:00Z") = some ⟨2020, 1, 1, 0, 0, 0, 0⟩ ∧
    toMicros ⟨2020, 1, 1, 0, 0, 0, 0⟩ < toMicros envFixture1.now ∧
    "expiration = 2020-01-01T00:00:00Z" ∈ mFixture1.caveats ∧
    (l402_authentication envFixture1 (some ("LSAT " ++ serialize mFixture1))
      "/protected-resource").1 = true ∧
    (l402_authentication envFixture1 (some ("LSAT " ++ serialize mFixture1))
      "/protected-resource").2 = .error ⟨401, "Macaroon has expired.", none⟩ := by
  refine ⟨by decide, by decide, by decide, by decide, by decide⟩

/-- C1 (amended): the signature-side checks (scheme, decoding, caveat
presence, signature) do run before the settlement query, but the
expiration and scope checks run after it: whether the settlement query
is issued equals `sigStagePasses`, a condition depending only on the
secret key and the credential, independent of the current time, the
requested path and the provider's answer; the challenge branch never
queries settlement. -/
theorem C1_amended (env : AuthEnv) (auth path : String)
    (now' : DateTime) (path' : String) (pay' : PaymentResult) :
    (l402_authentication env (some auth) path).1 = sigStagePasses env.secretKey auth ∧
    (l402_authentication { env with now := now', payment := pay' } (some auth) path').1 =
      (l402_authentication env (some auth) path).1 ∧
    (l402_authentication env none path).1 = false := by
  refine ⟨l402_queried_eq_sigStage env auth path, ?_, rfl⟩
  rw [l402_queried_eq_sigStage, l402_queried_eq_sigStage]

/-- C2: for every caveat set whose components avoid the transport line
separator, deserializing the serialization of a freshly minted token
yields the token itself (hence caveats equal the originals in order),
the minted caveats are exactly the three in mint order, and the
signature verifies against the original secret key. -/
theorem C2_roundtrip (ident ph scope key : String) (now : DateTime) (em : Nat)
    (hi : '\n' ∉ ident.data) (hp : '\n' ∉ ph.data) (hs : '\n' ∉ scope.data) :
    deserialize (serialize (create_macaroon_with_caveats ident now ph em scope key)) =
      some (create_macaroon_with_caveats ident now ph em scope key) ∧
    (create_macaroon_with_caveats ident now ph em scope key).caveats =
      ["payment_hash = " ++ ph,
       "expiration = " ++ (isoformat (addMinutes now em) ++ "Z"),
       "scope = " ++ scope] ∧
    verify_signature (create_macaroon_with_caveats ident now ph em scope key) key = true := by
  refine ⟨?_, create_macaroon_caveats ident now ph em scope key,
    create_macaroon_verifies ident now ph em scope key⟩
  apply deserialize_serialize
  · exact (by decide : '\n' ∉ "lighning_goats".data)
  · exact hi
  · rw [create_macaroon_caveats]
    intro c hc
    rcases List.mem_cons.mp hc with rfl | hc
    · exact no_newline_append (by decide) hp
    rcases List.mem_cons.mp hc with rfl | hc
    · exact no_newline_append (by decide)
        (no_newline_append (isoformat_no_newline (addMinutes now em)) (by decide))
    rcases List.mem_cons.mp hc with rfl | hc
    · exact no_newline_append (by decide) hs
    · exact absurd hc (List.not_mem_nil c)

set_option maxRecDepth 200000 in
/-- C2 witness: the round trip evaluated at a concrete mint. -/
theorem C2_roundtrip_witness :
    deserialize (serialize (create_macaroon_with_caveats "id-1" ⟨2024, 1, 1, 0, 0, 0, 0⟩
        "abc" 30 "/protected-resource" "k")) =
      some (create_macaroon_with_caveats "id-1" ⟨2024, 1, 1, 0, 0, 0, 0⟩
        "abc" 30 "/protected-resource" "k") :=
  (C2_roundtrip "id-1" "abc" "/protected-resource" "k" ⟨2024, 1, 1, 0, 0, 0, 0⟩ 30
    (by decide) (by decide) (by decide)).1

/-- C3: once the header, decoding, caveat, signature, payment and
expiration stages pass, the outcome is decided by exact string equality
of the `scope` caveat with the requested path: equal gives pass-through,
any inequality (prefixes and suffixes included) gives the 403 denial. -/
theorem C3_scope_exact (env : AuthEnv) (auth path : String) (m : Macaroon) (ph et sc : String)
    (h1 : startsWithS "LSAT " auth = true)
    (h2 : deserialize (String.mk (afterSepL " ".data auth.data)) = some m)
    (h3 : extractCaveats m.caveats = ⟨some ph, some et, some sc⟩)
    (hph : ph ≠ "") (het : et ≠ "") (hsc : sc ≠ "")
    (h4 : verifierRun ["payment_hash = " ++ ph, "expiration = " ++ et, "scope = " ++ sc] m
      env.secretKey = true)
    (h5 : checkPaymentStage env.payment = .ok ())
    (h6 : checkExpiration env.now et = .ok ()) :
    (l402_authentication env (some auth) path).2 =
      (if sc = path then Except.ok ()
       else .error ⟨403, "Access to the requested resource is forbidden.", none⟩) := by
  rw [l402_reduction env auth path m ph et sc h1 h2 h3 hph het hsc h4]
  rw [h5, h6]
  show (match checkScope sc path with
    | Except.error e => (true, Except.error e)
    | Except.ok _ => (true, Except.ok ())).2 = _
  rw [checkScope]
  by_cases hsp : sc = path
  · simp [hsp]
  · simp [hsp]

set_option maxRecDepth 200000 in
/-- C3 witness: a paid, unexpired token scoped to `/a` presented against
the path `/ab` (of which `/a` is a prefix) is denied with the 403
scope-forbidden outcome. -/
theorem C3_scope_exact_witness :
    (l402_authentication envFixture3 (some ("LSAT " ++ serialize mFixture3)) "/ab").2 =
      .error ⟨403, "Access to the requested resource is forbidden.", none⟩ := by
  have h := C3_scope_exact envFixture3 ("LSAT " ++ serialize mFixture3) "/ab" mFixture3
    "abc123" "2099-01-01T00:00:00Z" "/a"
    (by decide) (by decide) (by decide) (by decide) (by decide) (by decide) (by decide)
    (by decide) (by decide)
  rw [h, if_neg (by decide)]

/-- C4: with header, decoding, caveats, signature and payment all
passing and the expiration caveat parsable, the outcome is the expired
401 denial exactly when the parsed expiration instant is strictly
before the current time; at or after the current time, a matching scope
yields pass-through. -/
theorem C4_expiration_boundary (env : AuthEnv) (auth path : String) (m : Macaroon)
    (ph et sc : String) (dt : DateTime)
    (h1 : startsWithS "LSAT " auth = true)
    (h2 : deserialize (String.mk (afterSepL " ".data auth.data)) = some m)
    (h3 : extractCaveats m.caveats = ⟨some ph, some et, some sc⟩)
    (hph : ph ≠ "") (het : et ≠ "") (hsc : sc ≠ "")
    (h4 : verifierRun ["payment_hash = " ++ ph, "expiration = " ++ et, "scope = " ++ sc] m
      env.secretKey = true)
    (h5 : checkPaymentStage env.payment = .ok ())
    (hparse : fromisoformat (rstripZ et) = some dt) :
    ((l402_authentication env (some auth) path).2 =
        .error ⟨401, "Macaroon has expired.", none⟩ ↔ toMicros dt < toMicros env.now) ∧
    (sc = path → ¬ toMicros dt < toMicros env.now →
      (l402_authentication env (some auth) path).2 = .ok ()) := by
  have hexp : checkExpiration env.now et =
      (if toMicros env.now > toMicros dt
       then Except.error ⟨401, "Macaroon has expired.", none⟩ else Except.ok ()) := by
    rw [checkExpiration, hparse]
  by_cases hlt : toMicros env.now > toMicros dt
  · have hres : (l402_authentication env (some auth) path).2 =
        Except.error ⟨401, "Macaroon has expired.", none⟩ := by
      rw [l402_reduction env auth path m ph et sc h1 h2 h3 hph het hsc h4, h5, hexp,
        if_pos hlt]
    exact ⟨⟨fun _ => hlt, fun _ => hres⟩, fun _ hnot => absurd hlt hnot⟩
  · have hnotlt : ¬ toMicros dt < toMicros env.now := hlt
    by_cases hsp : sc = path
    · have hres : (l402_authentication env (some auth) path).2 = Except.ok () := by
        rw [l402_reduction env auth path m ph et sc h1 h2 h3 hph het hsc h4, h5, hexp,
          if_neg hlt, checkScope, if_neg (by simp [hsp])]
      constructor
      · constructor
        · intro hcon
          rw [hres] at hcon
          exact absurd hcon (by decide)
        · intro hcon
          exact absurd hcon hnotlt
      · intro _ _
        exact hres
    · have hres : (l402_authentication env (some auth) path).2 =
          Except.error ⟨403, "Access to the requested resource is forbidden.", none⟩ := by
        rw [l402_reduction env auth path m ph et sc h1 h2 h3 hph het hsc h4, h5, hexp,
          if_neg hlt, checkScope, if_pos (by simp [hsp])]
      constructor
      · constructor
        · intro hcon
          rw [hres] at hcon
          exact absurd hcon (by decide)
        · intro hcon
          exact absurd hcon hnotlt
      · intro hsp' _
        exact absurd hsp' hsp

set_option maxRecDepth 200000 in
/-- C4 witness: with current time 2024-01-01T12:00:01Z, the token
expiring one second earlier is denied as expired and the token expiring
one second later passes through. -/
theorem C4_expiration_boundary_witness :
    (l402_authentication envFixture4 (some ("LSAT " ++ serialize mFixture4a)) "/p").2 =
      .error ⟨401, "Macaroon has expired.", none⟩ ∧
    (l402_authentication envFixture4 (some ("LSAT " ++ serialize mFixture4b)) "/p").2 =
      .ok () := by
  constructor
  · exact (C4_expiration_boundary envFixture4 ("LSAT " ++ serialize mFixture4a) "/p"
      mFixture4a "abc123" "2024-01-01T12:00:00Z" "/p" ⟨2024, 1, 1, 12, 0, 0, 0⟩
      (by decide) (by decide) (by decide) (by decide) (by decide) (by decide) (by decide)
      (by decide) (by decide)).1.mpr (by decide)
  · exact (C4_expiration_boundary envFixture4 ("LSAT " ++ serialize mFixture4b) "/p"
      mFixture4b "abc123" "2024-01-01T12:00:02Z" "/p" ⟨2024, 1, 1, 12, 0, 2, 0⟩
      (by decide) (by decide) (by decide) (by decide) (by decide) (by decide) (by decide)
      (by decide) (by decide)).2 rfl (by decide)

theorem missingOf_eq_missingSpec (ex : Extracted) : missingOf ex = missingSpec ex := by
  rcases ex with ⟨p, e, s⟩
  by_cases hp : pyFalsy p = true <;> by_cases he : pyFalsy e = true <;>
    by_cases hs : pyFalsy s = true <;>
    simp_all [missingOf, missingSpec]

/-- C5: when the extracted caveats leave one or more of the three
required keys absent or empty, the gate denies with 401 and the detail
lists exactly the missing keys (the required keys whose extracted value
is absent, in the fixed key order), and the settlement query is never
issued. -/
theorem C5_missing_caveats (env : AuthEnv) (auth path : String) (m : Macaroon)
    (h1 : startsWithS "LSAT " auth = true)
    (h2 : deserialize (String.mk (afterSepL " ".data auth.data)) = some m)
    (hne : missingOf (extractCaveats m.caveats) ≠ []) :
    missingOf (extractCaveats m.caveats) = missingSpec (extractCaveats m.caveats) ∧
    l402_authentication env (some auth) path =
      (false, .error ⟨401, "Macaroon missing caveats: " ++
        String.intercalate ", " (missingOf (extractCaveats m.caveats)) ++ ".", none⟩) := by
  refine ⟨missingOf_eq_missingSpec _, ?_⟩
  simp only [l402_authentication, h1, if_true, h2, ne_eq, hne, not_false_eq_true, if_true]

set_option maxRecDepth 200000 in
/-- C5 witness: a signed token carrying only `payment_hash` and `scope`
caveats is denied 401 listing exactly `expiration` as missing. -/
theorem C5_missing_caveats_witness :
    missingOf (extractCaveats mFixture5.caveats) = ["expiration"] ∧
    l402_authentication envFixture5 (some ("LSAT " ++ serialize mFixture5)) "/a" =
      (false, .error ⟨401, "Macaroon missing caveats: expiration.", none⟩) := by
  refine ⟨by decide, ?_⟩
  exact ((C5_missing_caveats envFixture5 ("LSAT " ++ serialize mFixture5) "/a" mFixture5
    (by decide) (by decide) (by decide)).2).trans (by decide)

theorem isoformat_no_dot_of_zero (dt : DateTime) (hz : dt.microsecond = 0) :
    '.' ∉ (isoformat dt).data := by
  intro h
  rw [isoformat_data, if_pos (by simp [hz])] at h
  rcases List.mem_append.mp h with h | h
  rotate_left
  · exact absurd h (List.not_mem_nil _)
  rcases List.mem_append.mp h with h | h
  rotate_left
  · rcases List.mem_cons.mp h with h' | h'
    · exact absurd h' (by decide)
    · exact absurd (padChars_digits_or_zero 2 dt.second _ h') (by decide)
  rcases List.mem_append.mp h with h | h
  rotate_left
  · rcases List.mem_cons.mp h with h' | h'
    · exact absurd h' (by decide)
    · exact absurd (padChars_digits_or_zero 2 dt.minute _ h') (by decide)
  rcases List.mem_append.mp h with h | h
  rotate_left
  · rcases List.mem_cons.mp h with h' | h'
    · exact absurd h' (by decide)
    · exact absurd (padChars_digits_or_zero 2 dt.hour _ h') (by decide)
  rcases List.mem_append.mp h with h | h
  rotate_left
  · rcases List.mem_cons.mp h with h' | h'
    · exact absurd h' (by decide)
    · exact absurd (padChars_digits_or_zero 2 dt.day _ h') (by decide)
  rcases List.mem_append.mp h with h | h
  · exact absurd (padChars_digits_or_zero 4 dt.year _ h) (by decide)
  · rcases List.mem_cons.mp h with h' | h'
    · exact absurd h' (by decide)
    · exact absurd (padChars_digits_or_zero 2 dt.month _ h') (by decide)

theorem hasFractionalSeconds_isoformat (dt : DateTime) :
    hasFractionalSeconds (isoformat dt) = true ↔ dt.microsecond ≠ 0 := by
  constructor
  · intro h hz
    have hmem : '.' ∈ (isoformat dt).data := by
      have := h
      rw [hasFractionalSeconds] at this
      exact List.elem_iff.mp this
    exact isoformat_no_dot_of_zero dt hz hmem
  · intro hnz
    rw [hasFractionalSeconds]
    apply List.elem_iff.mpr
    rw [isoformat_data, if_neg (by simp [hnz])]
    exact List.mem_append_right _ (List.mem_cons_self _ _)

theorem addMinutes_microsecond (dt : DateTime) (em : Nat) (hus : dt.microsecond ≤ 999999) :
    (addMinutes dt em).microsecond = dt.microsecond := by
  show (toMicros dt + em * 60 * 1000000) % 1000000 = dt.microsecond
  rw [toMicros]
  omega

set_option maxRecDepth 200000 in
/-- C6 counterexample: a challenge minted at an instant with 500000
microseconds embeds an expiration caveat carrying a fractional-seconds
part (`.500000`), so the minted timestamp is not second-precision. -/
theorem C6_counterexample :
    (challengeMacaroon envFixture6 "/p").caveats =
      ["payment_hash = hash6", "expiration = 2024-01-01T12:30:00.500000Z", "scope = /p"] ∧
    hasFractionalSeconds "2024-01-01T12:30:00.500000Z" = true ∧
    (l402_authentication envFixture6 none "/p").2 =
      .error ⟨402, "Payment Required",
        some ("LSAT macaroon=\"" ++ serialize (challengeMacaroon envFixture6 "/p") ++
          "\", invoice=\"inv6\"")⟩ := by
  refine ⟨by decide, by decide, rfl⟩

/-- C6 (amended): the expiration caveat minted into a challenge token
equals the mint time plus the TTL, rendered by `isoformat` with a `Z`
suffix; the rendering is second-precision (no fractional part) exactly
when the microsecond component of the expiration instant is zero, and
that component equals the mint-time microsecond component. -/
theorem C6_amended (ident : String) (now : DateTime) (ph : String) (em : Nat) (sc key : String)
    (hus : now.microsecond ≤ 999999) :
    (create_macaroon_with_caveats ident now ph em sc key).caveats.get? 1 =
      some ("expiration = " ++ (isoformat (addMinutes now em) ++ "Z")) ∧
    (hasFractionalSeconds (isoformat (addMinutes now em)) = true ↔
      (addMinutes now em).microsecond ≠ 0) ∧
    (addMinutes now em).microsecond = now.microsecond := by
  refine ⟨?_, hasFractionalSeconds_isoformat _, addMinutes_microsecond now em hus⟩
  rw [create_macaroon_caveats]
  rfl

set_option maxRecDepth 200000 in
/-- C6 witness: the amended statement evaluated at the concrete mint
instant 2024-01-01T12:00:00.500000Z with a 30-minute TTL. -/
theorem C6_amended_witness :
    (create_macaroon_with_caveats "cid-6" ⟨2024, 1, 1, 12, 0, 0, 500000⟩ "hash6" 30 "/p"
        "testkey").caveats.get? 1 =
      some ("expiration = " ++
        (isoformat (addMinutes ⟨2024, 1, 1, 12, 0, 0, 500000⟩ 30) ++ "Z")) :=
  (C6_amended "cid-6" ⟨2024, 1, 1, 12, 0, 0, 500000⟩ "hash6" 30 "/p" "testkey" (by decide)).1

set_option maxRecDepth 200000 in
/-- C7: duplicate caveats for a required key are not rejected by the
extraction or caveat-presence stages: the last occurrence overwrites
earlier ones, whatever earlier caveats said, and a correctly signed
token containing the same `scope` caveat twice passes the full pipeline
(last-seen value feeding the signature, payment, expiration and scope
checks). -/
theorem C7_duplicates :
    (∀ (cs : List String) (v : String),
      (extractCaveats (cs ++ ["payment_hash = " ++ v])).payment_hash = some v ∧
      (extractCaveats (cs ++ ["expiration = " ++ v])).expiration = some v ∧
      (extractCaveats (cs ++ ["scope = " ++ v])).scope = some v) ∧
    mFixture7.caveats.count "scope = /p" = 2 ∧
    l402_authentication envFixture7 (some ("LSAT " ++ serialize mFixture7)) "/p" =
      (true, .ok ()) := by
  refine ⟨?_, by decide, by decide⟩
  intro cs v
  refine ⟨?_, ?_, ?_⟩
  · rw [extractCaveats_append, extractStep_ph]
  · rw [extractCaveats_append, extractStep_exp]
  · rw [extractCaveats_append, extractStep_scope]

/-- C8: once the pipeline reaches the settlement query, either provider
failure mode (non-2xx status, transport error) yields the 502 gateway
outcome, unsettled payment yields the 402 payment-required denial, and
502 differs from every status code a security denial can carry
(400, 401, 402, 403). -/
theorem C8_provider_errors (env : AuthEnv) (auth path : String) (m : Macaroon)
    (ph et sc : String)
    (h1 : startsWithS "LSAT " auth = true)
    (h2 : deserialize (String.mk (afterSepL " ".data auth.data)) = some m)
    (h3 : extractCaveats m.caveats = ⟨some ph, some et, some sc⟩)
    (hph : ph ≠ "") (het : et ≠ "") (hsc : sc ≠ "")
    (h4 : verifierRun ["payment_hash = " ++ ph, "expiration = " ++ et, "scope = " ++ sc] m
      env.secretKey = true) :
    (env.payment = .httpStatusError ∨ env.payment = .requestError →
      l402_authentication env (some auth) path =
        (true, .error ⟨502, "Error verifying payment status.", none⟩)) ∧
    (env.payment = .ok false →
      l402_authentication env (some auth) path =
        (true, .error ⟨402, "Payment required but not completed.", none⟩)) ∧
    ((502 : Nat) ≠ 400 ∧ (502 : Nat) ≠ 401 ∧ (502 : Nat) ≠ 402 ∧ (502 : Nat) ≠ 403) := by
  rw [l402_reduction env auth path m ph et sc h1 h2 h3 hph het hsc h4]
  refine ⟨?_, ?_, by decide, by decide, by decide, by decide⟩
  · rintro (hp | hp) <;> rw [hp] <;> rfl
  · intro hp
    rw [hp]
    rfl

set_option maxRecDepth 200000 in
/-- C8 witness: a valid token whose settlement query hits a non-2xx
provider response produces the 502 gateway outcome. -/
theorem C8_provider_errors_witness :
    l402_authentication envFixture8 (some ("LSAT " ++ serialize mFixture8)) "/p" =
      (true, .error ⟨502, "Error verifying payment status.", none⟩) :=
  (C8_provider_errors envFixture8 ("LSAT " ++ serialize mFixture8) "/p" mFixture8
    "abc123" "2099-01-01T00:00:00Z" "/p"
    (by decide) (by decide) (by decide) (by decide) (by decide) (by decide)
    (by decide)).1 (Or.inl rfl)

/-- C9: a request with no Authorization header receives the 402
"Payment Required" outcome whose `WWW-Authenticate` header is
`LSAT macaroon="…", invoice="…"`, where the embedded macaroon (which
deserializes back to the minted token) carries a `scope` caveat equal
to the requested path and the invoice is the provider's payment
request. -/
theorem C9_challenge (env : AuthEnv) (path : String)
    (hi : '\n' ∉ env.identifier.data) (hp : '\n' ∉ env.invoice.2.data)
    (hs : '\n' ∉ path.data) :
    l402_authentication env none path =
      (false, .error ⟨402, "Payment Required",
        some ("LSAT macaroon=\"" ++ serialize (challengeMacaroon env path) ++
          "\", invoice=\"" ++ env.invoice.1 ++ "\"")⟩) ∧
    deserialize (serialize (challengeMacaroon env path)) = some (challengeMacaroon env path) ∧
    (extractCaveats (challengeMacaroon env path).caveats).scope = some path := by
  refine ⟨rfl, ?_, ?_⟩
  · apply deserialize_serialize
    · exact (by decide : '\n' ∉ "lighning_goats".data)
    · exact hi
    · rw [challengeMacaroon, create_macaroon_caveats]
      intro c hc
      rcases List.mem_cons.mp hc with rfl | hc
      · exact no_newline_append (by decide) hp
      rcases List.mem_cons.mp hc with rfl | hc
      · exact no_newline_append (by decide)
          (no_newline_append (isoformat_no_newline (addMinutes env.now 30)) (by decide))
      rcases List.mem_cons.mp hc with rfl | hc
      · exact no_newline_append (by decide) hs
      · exact absurd hc (List.not_mem_nil c)
  · rw [challengeMacaroon, create_macaroon_caveats]
    show (extractStep (extractStep (extractStep {}
      ("payment_hash = " ++ env.invoice.2))
      ("expiration = " ++ (isoformat (addMinutes env.now 30) ++ "Z")))
      ("scope = " ++ path)).scope = some path
    rw [extractStep_ph, extractStep_exp, extractStep_scope]

set_option maxRecDepth 200000 in
/-- C9 witness: the challenge evaluated for the path
`/protected-resource`: the header carries the serialized macaroon and
the invoice, and the embedded macaroon's scope caveat is the path. -/
theorem C9_challenge_witness :
    l402_authentication envFixture9 none "/protected-resource" =
      (false, .error ⟨402, "Payment Required",
        some ("LSAT macaroon=\"" ++ serialize (challengeMacaroon envFixture9
          "/protected-resource") ++ "\", invoice=\"inv9\"")⟩) ∧
    (extractCaveats (challengeMacaroon envFixture9 "/protected-resource").caveats).scope =
      some "/protected-resource" := by
  have h := C9_challenge envFixture9 "/protected-resource" (by decide) (by decide) (by decide)
  exact ⟨h.1, h.2.2⟩

set_option maxRecDepth 200000 in
/-- C10: an empty caveat value is treated exactly like an absent caveat
by the missing-caveat computation (Python falsiness), and a correctly
signed token whose `expiration` caveat text is `"expiration = "` is
denied 401 listing `expiration` as missing even though a caveat with
that key is present. -/
theorem C10_empty_values :
    (∀ ex : Extracted,
      missingOf { ex with payment_hash := some "" } =
        missingOf { ex with payment_hash := none } ∧
      missingOf { ex with expiration := some "" } =
        missingOf { ex with expiration := none } ∧
      missingOf { ex with scope := some "" } = missingOf { ex with scope := none }) ∧
    "expiration = " ∈ mFixture10.caveats ∧
    (extractCaveats mFixture10.caveats).expiration = some "" ∧
    l402_authentication envFixture10 (some ("LSAT " ++ serialize mFixture10)) "/p" =
      (false, .error ⟨401, "Macaroon missing caveats: expiration.", none⟩) := by
  refine ⟨?_, by decide, by decide, by decide⟩
  intro ex
  refine ⟨?_, ?_, ?_⟩ <;> simp [missingOf, pyFalsy]
